import Mathlib

/-!
Shallow embedding of the HGuard validation pipeline and policy engine
(Go sources: `pkg/internal/schema/schema.go`, `pkg/internal/core/policy/engine.go`,
the `validation` package's `ValidateToolCall`, and the fuzzy matcher in
`internal/core/fuzzy`).  Go maps are embedded as association lists (one fixed
iteration order made explicit), Go `interface{}` scalar values as the inductive
`GoVal`, `float64` as `ℚ`, `time.Time` as an opaque integer tick, and the
process-global registries as an explicit `GuardState` threaded through the
stateful operations.
-/

namespace HGuard

/-- A Go `interface{}` value as it occurs in parameters, context metadata and
the expression-evaluation environment: scalars, string slices, nested string
maps, and the callable helpers installed in the environment. `float64` values
are embedded as rationals (every float64 is a rational; no arithmetic on them
is performed anywhere in the embedded code). -/
inductive GoVal where
  | str (s : String)
  | int (n : Int)
  | float (q : ℚ)
  | bool (b : Bool)
  | strList (l : List String)
  | vmap (m : List (String × GoVal))
  | func (tag : Nat)

/-- Tag of the `len` helper installed in the evaluation environment. -/
def fnLen : Nat := 0

/-- Tag of the `contains` helper installed in the evaluation environment. -/
def fnContains : Nat := 1

/-- Tag of the `now` helper installed in the evaluation environment
(`time.Now` in the Go source). -/
def fnNow : Nat := 2

/-- Association-list lookup: the read `v, ok := m[k]` of a Go map. -/
def lookupStr {α : Type} (m : List (String × α)) (k : String) : Option α :=
  match m with
  | [] => none
  | (k', v) :: rest => if k' = k then some v else lookupStr rest k

/-- Association-list store: the write `m[k] = v` of a Go map (replaces the
entry for `k` when present, appends otherwise). -/
def mapSet {α : Type} (m : List (String × α)) (k : String) (v : α) :
    List (String × α) :=
  match m with
  | [] => [(k, v)]
  | (k', v') :: rest => if k' = k then (k, v) :: rest else (k', v') :: mapSet rest k v

/-- `ParameterSchema` from `pkg/internal/schema/schema.go`: expected type and
requirements of one tool parameter. The Go struct has no min-length field. -/
structure ParameterSchema where
  Typ : String
  Required : Bool := false
  Enum : List String := []
  Pattern : String := ""
  MaxLength : Int := 0
deriving DecidableEq

/-- `ToolSchema` from `pkg/internal/schema/schema.go`. The Go `Parameters`
field is a `map[string]ParameterSchema`; the association list fixes one
iteration order for the `range` loop of `ValidateParameters` (Go leaves the
order of a map `range` unspecified). -/
structure ToolSchema where
  Name : String
  Parameters : List (String × ParameterSchema) := []

/-- `CallContext` of the pkg model (fields as read by
`evaluateCondition` in `engine.go` and mirrored by the public context struct
in the SDK facade). All fields default to Go zero values. -/
structure CallContext where
  UserID : String := ""
  UserRole : String := ""
  SessionID : String := ""
  ConversationID : String := ""
  PreviousCalls : List String := []
  UserPermissions : List String := []
  IPAddress : String := ""
  TimeOfDay : Int := 0
  Metadata : List (String × GoVal) := []

/-- `ToolCall` of the pkg model. `Timestamp` (a `time.Time`) is an opaque
tick never inspected by the embedded code. -/
structure ToolCall where
  ID : String := ""
  Name : String
  Parameters : List (String × GoVal) := []
  Context : CallContext := {}
  Timestamp : Int := 0

/-- The body of the `range` loop of `ValidateParameters`
(`pkg/internal/schema/schema.go`): the check of a single declared parameter
against the supplied parameter map, returning `some` error message on
failure. Of the string constraints only `MaxLength` is checked there; the
`Pattern` and `Enum` fields are not consulted (the source marks the spot
with a comment). -/
def checkParam (paramName : String) (paramSchema : ParameterSchema)
    (params : List (String × GoVal)) : Option String :=
  match lookupStr params paramName with
  | none =>
      if paramSchema.Required then
        some ("missing required parameter: " ++ paramName)
      else none
  | some value =>
      if paramSchema.Typ = "string" then
        match value with
        | GoVal.str s =>
            if paramSchema.MaxLength > 0 ∧ (s.length : Int) > paramSchema.MaxLength then
              some ("parameter " ++ paramName ++ " exceeds max length")
            else none
        | _ => some ("parameter " ++ paramName ++ " should be a string")
      else if paramSchema.Typ = "number" then
        match value with
        | GoVal.float _ => none
        | GoVal.int _ => none
        | _ => some ("parameter " ++ paramName ++ " should be a number")
      else if paramSchema.Typ = "boolean" then
        match value with
        | GoVal.bool _ => none
        | _ => some ("parameter " ++ paramName ++ " should be a boolean")
      else none

/-- The `range` loop of `ValidateParameters` over an explicit entry order:
returns the first failing parameter's message in that order (the Go function
returns from inside the loop at the first failure). -/
def ValidateParametersWith (entries : List (String × ParameterSchema))
    (params : List (String × GoVal)) : Option String :=
  match entries with
  | [] => none
  | (n, ps) :: rest =>
      match checkParam n ps params with
      | some e => some e
      | none => ValidateParametersWith rest params

/-- `ValidateParameters` from `pkg/internal/schema/schema.go`, iterating the
schema's parameter entries in the order fixed by the association list. -/
def ValidateParameters (schema : ToolSchema) (params : List (String × GoVal)) :
    Option String :=
  ValidateParametersWith schema.Parameters params

/-- The inner loop of the Levenshtein DP (`for j := 1; j <= lb; j++`): given
the running previous-row tail (starting at column `j-1`), the entry to the
left in the new row, and the remaining characters of `b`, produce the rest of
the new row via
`dp[i][j] = min(dp[i-1][j]+1, dp[i][j-1]+1, dp[i-1][j-1]+cost)`. -/
def levGo (x : Char) (left : Nat) : List Nat → List Char → List Nat
  | pdiag :: up :: prest, y :: ys =>
      let cost := if x = y then 0 else 1
      let v := min (min (up + 1) (left + 1)) (pdiag + cost)
      v :: levGo x v (up :: prest) ys
  | _, _ => []

/-- One outer iteration of the Levenshtein DP (`for i := 1; i <= la; i++`):
row `i` from row `i-1`, with `dp[i][0] = i`. -/
def levRow (x : Char) (bs : List Char) (prev : List Nat) (i : Nat) : List Nat :=
  i :: levGo x i prev bs

/-- `LevenshteinDistance` from `internal/core/fuzzy` (the pkg twin is the
same function): the row-by-row DP over the two strings, with the early
returns for an empty argument, answering `dp[la][lb]`. -/
def LevenshteinDistance (a b : String) : Nat :=
  let la := a.length
  let lb := b.length
  if la = 0 then lb
  else if lb = 0 then la
  else
    let bs := b.toList
    let final := a.toList.foldl
      (fun (acc : List Nat × Nat) x =>
        let i := acc.2 + 1
        (levRow x bs acc.1 i, i))
      (List.range (lb + 1), 0)
    final.1.getLastD 0

/-- `FuzzyMatchToolName` from `internal/core/fuzzy`: closest known name and
its distance, or `("", -1)` when nothing is within `maxDistance`. The loop
keeps the first name attaining the minimum (strict `<` update). -/
def FuzzyMatchToolName (input : String) (known : List String)
    (maxDistance : Nat) : String × Int :=
  let best := known.foldl
    (fun (acc : String × Nat) name =>
      let dist := LevenshteinDistance input name
      if dist < acc.2 then (name, dist) else acc)
    ("", maxDistance + 1)
  if best.2 ≤ maxDistance then (best.1, (best.2 : Int)) else ("", -1)

/-- Modelled from the spec: §4.3 expression language. The Go engine delegates
compilation and evaluation of condition strings to the external `expr-lang`
library, which is not vendored under the repository sources; this AST is the
compiled form of a condition, covering the surface §4.3 requires (comparisons,
logical operators, membership `in`, `len`, `contains`, and integer / double /
string / boolean literals; parenthesised grouping is the tree structure
itself). A dotted environment name such as `user.role` is `var "user"
["role"]`. -/
inductive Expr where
  | litInt (n : Int)
  | litFloat (q : ℚ)
  | litStr (s : String)
  | litBool (b : Bool)
  | var (root : String) (fields : List String)
  | eq (a b : Expr)
  | ne (a b : Expr)
  | lt (a b : Expr)
  | le (a b : Expr)
  | gt (a b : Expr)
  | ge (a b : Expr)
  | and (a b : Expr)
  | or (a b : Expr)
  | not (a : Expr)
  | inOp (item arr : Expr)
  | lenOp (arr : Expr)
  | containsOp (arr item : Expr)
deriving DecidableEq

/-- Numeric view of a value (Go ints and float64s both count as numbers). -/
def GoVal.toNum : GoVal → Option ℚ
  | GoVal.int n => some (n : ℚ)
  | GoVal.float q => some q
  | _ => none

/-- Equality test of two environment values as the evaluator needs it:
numbers compare numerically, strings, booleans and string lists structurally;
any other pairing is an evaluation error. -/
def valEq (a b : GoVal) : Except String Bool :=
  match a.toNum, b.toNum with
  | some x, some y => Except.ok (decide (x = y))
  | _, _ =>
      match a, b with
      | GoVal.str s, GoVal.str t => Except.ok (decide (s = t))
      | GoVal.bool x, GoVal.bool y => Except.ok (decide (x = y))
      | GoVal.strList l, GoVal.strList m => Except.ok (decide (l = m))
      | _, _ => Except.error "incomparable values"

/-- Ordering test of two environment values (numeric only). -/
def valCmpLt (a b : GoVal) : Except String Bool :=
  match a.toNum, b.toNum with
  | some x, some y => Except.ok (decide (x < y))
  | _, _ => Except.error "not ordered values"

/-- Resolve a dotted identifier against the environment: the root name must
be bound and every field must exist in the nested map, else evaluation fails
(fail closed: the library rejects identifiers outside the environment). -/
def envLookup (env : List (String × GoVal)) (root : String) :
    List String → Except String GoVal :=
  fun fields =>
    match lookupStr env root with
    | none => Except.error ("unknown identifier: " ++ root)
    | some v => walk v fields
where
  /-- Walk the field path through nested maps. -/
  walk : GoVal → List String → Except String GoVal
    | v, [] => Except.ok v
    | GoVal.vmap m, f :: rest =>
        match lookupStr m f with
        | none => Except.error ("unknown field: " ++ f)
        | some v => walk v rest
    | _, _ :: _ => Except.error "field access on a non-map value"

/-- Modelled from the spec: §4.3 evaluation of a compiled condition against
the environment. Comparisons and logical operators are as listed there;
`len` and `contains` have the types of the helpers the engine installs in
the environment (`[]string → int` and `([]string, string) → bool`); `in`
operates on ordered sequences of strings; a type mismatch is an evaluation
error, which the engine treats as a non-match. -/
def evalExpr (env : List (String × GoVal)) : Expr → Except String GoVal
  | Expr.litInt n => Except.ok (GoVal.int n)
  | Expr.litFloat q => Except.ok (GoVal.float q)
  | Expr.litStr s => Except.ok (GoVal.str s)
  | Expr.litBool b => Except.ok (GoVal.bool b)
  | Expr.var root fields => envLookup env root fields
  | Expr.eq a b => do
      let va ← evalExpr env a
      let vb ← evalExpr env b
      let r ← valEq va vb
      Except.ok (GoVal.bool r)
  | Expr.ne a b => do
      let va ← evalExpr env a
      let vb ← evalExpr env b
      let r ← valEq va vb
      Except.ok (GoVal.bool (!r))
  | Expr.lt a b => do
      let va ← evalExpr env a
      let vb ← evalExpr env b
      let r ← valCmpLt va vb
      Except.ok (GoVal.bool r)
  | Expr.le a b => do
      let va ← evalExpr env a
      let vb ← evalExpr env b
      let r ← valCmpLt vb va
      Except.ok (GoVal.bool (!r))
  | Expr.gt a b => do
      let va ← evalExpr env a
      let vb ← evalExpr env b
      let r ← valCmpLt vb va
      Except.ok (GoVal.bool r)
  | Expr.ge a b => do
      let va ← evalExpr env a
      let vb ← evalExpr env b
      let r ← valCmpLt va vb
      Except.ok (GoVal.bool (!r))
  | Expr.and a b => do
      match ← evalExpr env a with
      | GoVal.bool false => Except.ok (GoVal.bool false)
      | GoVal.bool true =>
          match ← evalExpr env b with
          | GoVal.bool rb => Except.ok (GoVal.bool rb)
          | _ => Except.error "non-boolean operand"
      | _ => Except.error "non-boolean operand"
  | Expr.or a b => do
      match ← evalExpr env a with
      | GoVal.bool true => Except.ok (GoVal.bool true)
      | GoVal.bool false =>
          match ← evalExpr env b with
          | GoVal.bool rb => Except.ok (GoVal.bool rb)
          | _ => Except.error "non-boolean operand"
      | _ => Except.error "non-boolean operand"
  | Expr.not a => do
      match ← evalExpr env a with
      | GoVal.bool r => Except.ok (GoVal.bool (!r))
      | _ => Except.error "non-boolean operand"
  | Expr.inOp item arr => do
      let vi ← evalExpr env item
      let va ← evalExpr env arr
      match vi, va with
      | GoVal.str s, GoVal.strList l => Except.ok (GoVal.bool (decide (s ∈ l)))
      | _, _ => Except.error "in: expected a string and a string list"
  | Expr.lenOp arr => do
      match ← evalExpr env arr with
      | GoVal.strList l => Except.ok (GoVal.int (l.length : Int))
      | _ => Except.error "len: expected a string list"
  | Expr.containsOp arr item => do
      let va ← evalExpr env arr
      let vi ← evalExpr env item
      match va, vi with
      | GoVal.strList l, GoVal.str s => Except.ok (GoVal.bool (decide (s ∈ l)))
      | _, _ => Except.error "contains: expected a string list and a string"

/-- The evaluation environment assembled by `evaluateCondition`
(`pkg/internal/core/policy/engine.go`) from a tool call: the nested maps
`user`, `session`, `params`, `tool`, `time`, `request`, `metadata`, and the
three helper functions the Go code installs directly in the environment —
`len`, `contains` and `now` (a closure over `time.Now`). -/
def condEnv (tc : ToolCall) : List (String × GoVal) :=
  [ ("user", GoVal.vmap
      [ ("id", GoVal.str tc.Context.UserID)
      , ("role", GoVal.str tc.Context.UserRole)
      , ("permissions", GoVal.strList tc.Context.UserPermissions) ])
  , ("session", GoVal.vmap
      [ ("id", GoVal.str tc.Context.SessionID)
      , ("conversation_id", GoVal.str tc.Context.ConversationID)
      , ("previous_calls", GoVal.strList tc.Context.PreviousCalls) ])
  , ("params", GoVal.vmap tc.Parameters)
  , ("tool", GoVal.vmap [("name", GoVal.str tc.Name)])
  , ("time", GoVal.vmap [("hour", GoVal.int tc.Context.TimeOfDay)])
  , ("request", GoVal.vmap [("ip", GoVal.str tc.Context.IPAddress)])
  , ("metadata", GoVal.vmap tc.Context.Metadata)
  , ("len", GoVal.func fnLen)
  , ("contains", GoVal.func fnContains)
  , ("now", GoVal.func fnNow) ]

/-- The names of the callable (function-valued) entries of an evaluation
environment. -/
def envFuncs (env : List (String × GoVal)) : List String :=
  env.filterMap fun e =>
    match e.2 with
    | GoVal.func _ => some e.1
    | _ => none

/-- The pure result of `evaluateCondition`'s compile-and-run sequence: run
the condition against the environment built from the tool call and require a
boolean, as the Go code does after `expr.Run`. -/
def runCond (condition : Expr) (tc : ToolCall) : Except String Bool :=
  match evalExpr (condEnv tc) condition with
  | Except.error e => Except.error ("failed to evaluate condition: " ++ e)
  | Except.ok (GoVal.bool b) => Except.ok b
  | Except.ok _ => Except.error "condition did not evaluate to boolean"

/-- `Policy` from `pkg/internal/core/policy/engine.go`. `Type` is a string in
Go (`PolicyType string`); `Condition` is the compiled form of the condition
source, `none` embedding the empty string (a policy with empty condition
always matches). -/
structure Policy where
  ToolName : String
  Typ : String
  Condition : Option Expr := none
  Reason : String := ""
  Priority : Int := 0
  Target : String := ""
deriving DecidableEq

/-- `PolicyResult` from `pkg/internal/core/policy/engine.go`. -/
structure PolicyResult where
  Action : String
  Reason : String
  Target : String
  Matched : Bool
  PolicyID : String
deriving DecidableEq

/-- The comparator `policies[i].Priority > policies[j].Priority` lifted to
the non-strict relation under which a stable sort reproduces Go's
`sort.Slice` result: `a` may stay before `b` iff `b` need not precede `a`. -/
def priGE (a b : Policy) : Prop := b.Priority ≤ a.Priority

instance : DecidableRel priGE := fun a b => inferInstanceAs (Decidable (b.Priority ≤ a.Priority))

instance : IsTotal Policy priGE := ⟨fun a b => le_total b.Priority a.Priority⟩

instance : IsTrans Policy priGE := ⟨fun _ _ _ h1 h2 => le_trans h2 h1⟩

/-- `sort.Slice(l, func(i, j) { return l[i].Priority > l[j].Priority })` as
performed by `RegisterPolicy` and `GetAllPolicies`: descending by priority.
For the slice lengths at hand Go's `sort.Slice` runs its insertion sort,
which is the stable sort `List.insertionSort` computes. -/
def sortPolicies (l : List Policy) : List Policy :=
  List.insertionSort priGE l

/-- The process-global mutable state of the embedded packages: the schema
registry (`toolSchemas` in `schema.go`), the policy registry (`policies` in
`engine.go`) and the compiled-expression cache (`exprCache`, keyed in Go by
the verbatim condition source; here by the compiled condition). -/
structure GuardState where
  toolSchemas : List (String × ToolSchema) := []
  policies : List (String × List Policy) := []
  exprCache : List Expr := []

/-- `RegisterToolSchema` from `schema.go`: overwrites any prior entry of the
same name. -/
def RegisterToolSchema (st : GuardState) (schema : ToolSchema) : GuardState :=
  { st with toolSchemas := mapSet st.toolSchemas schema.Name schema }

/-- `GetToolSchema` from `schema.go`. -/
def GetToolSchema (st : GuardState) (name : String) : Option ToolSchema :=
  lookupStr st.toolSchemas name

/-- The known-name list the validators build by ranging over the schema map
(`for name := range schema.ToolSchemas()`); the embedding enumerates the
entries in registry order. -/
def knownNames (st : GuardState) : List String :=
  st.toolSchemas.map Prod.fst

/-- `RegisterPolicy` from `engine.go`: appends to the list keyed by the
policy's tool name, then re-sorts that list by priority descending. -/
def RegisterPolicy (st : GuardState) (p : Policy) : GuardState :=
  let old := (lookupStr st.policies p.ToolName).getD []
  { st with policies := mapSet st.policies p.ToolName (sortPolicies (old ++ [p])) }

/-- `GetAllPolicies` from `engine.go`: specific-tool policies, then wildcard
policies, the concatenation re-sorted by priority descending. -/
def GetAllPolicies (st : GuardState) (toolName : String) : List Policy :=
  sortPolicies ((lookupStr st.policies toolName).getD []
    ++ (lookupStr st.policies "*").getD [])

/-- Insert a compiled condition into the expression cache if absent: the
cache bookkeeping of `evaluateCondition` (a compile-cache miss installs the
program; the computed result never depends on the cache, the program being a
pure function of the source). -/
def cacheAdd (st : GuardState) (condition : Expr) : GuardState :=
  if condition ∈ st.exprCache then st
  else { st with exprCache := st.exprCache ++ [condition] }

/-- `evaluateCondition` from `engine.go`: consult or fill the compiled-
expression cache, then run the program against the environment built from
the tool call and require a boolean result. -/
def evaluateCondition (st : GuardState) (condition : Expr) (tc : ToolCall) :
    GuardState × Except String Bool :=
  (cacheAdd st condition, runCond condition tc)

/-- The result of the unconditional-match branch of `EvaluatePolicy`
(`engine.go`): an empty condition matches with the policy's literal reason. -/
def uncondResult (p : Policy) : PolicyResult :=
  { Action := p.Typ
  , Reason := p.Reason
  , Target := p.Target
  , Matched := true
  , PolicyID := p.ToolName ++ ":" ++ p.Typ }

/-- The result of the conditional-match branch of `EvaluatePolicy`
(`engine.go`): an empty reason is replaced by a synthetic one. -/
def condResult (p : Policy) (tc : ToolCall) : PolicyResult :=
  { Action := p.Typ
  , Reason :=
      if p.Reason = "" then
        "Policy " ++ p.Typ ++ " matched for tool " ++ tc.Name
      else p.Reason
  , Target := p.Target
  , Matched := true
  , PolicyID := p.ToolName ++ ":" ++ p.Typ }

/-- The no-match default of `EvaluatePolicy` (`engine.go`). -/
def defaultAllowResult : PolicyResult :=
  { Action := "ALLOW"
  , Reason := "No matching policies found"
  , Target := ""
  , Matched := false
  , PolicyID := "default:allow" }

/-- The policy loop of `EvaluatePolicy` (`engine.go`): walk the ordered list;
an empty condition matches unconditionally; otherwise evaluate the condition
(which may fill the expression cache), skipping the policy on an evaluation
error and on a `false` result; the first match returns. -/
def evalPolicyLoop (st : GuardState) : List Policy → ToolCall → GuardState × PolicyResult
  | [], _ => (st, defaultAllowResult)
  | p :: rest, tc =>
      match p.Condition with
      | none => (st, uncondResult p)
      | some c =>
          let st' := cacheAdd st c
          match runCond c tc with
          | Except.error _ => evalPolicyLoop st' rest tc
          | Except.ok true => (st', condResult p tc)
          | Except.ok false => evalPolicyLoop st' rest tc

/-- `EvaluatePolicy` from `engine.go`. -/
def EvaluatePolicy (st : GuardState) (tc : ToolCall) : GuardState × PolicyResult :=
  evalPolicyLoop st (GetAllPolicies st tc.Name) tc

/-- `ApplyPolicy` from `engine.go` (legacy wrapper returning the action). -/
def ApplyPolicy (st : GuardState) (tc : ToolCall) : GuardState × String :=
  let r := EvaluatePolicy st tc
  (r.1, r.2.Action)

/-- `ValidationResult` of the pkg model. `Modifications` (a Go map, nil when
unset) is an association list, `[]` embedding nil; `Confidence` (`float64`)
is a rational. -/
structure ValidationResult where
  ToolCallID : String := ""
  Status : String := ""
  Confidence : ℚ := 0
  Reason : String := ""
  Modifications : List (String × GoVal) := []
  ExecutionAllowed : Bool := false
  SuggestedCorrection : Option ToolCall := none
  PolicyAction : String := ""

/-- The suggested-correction tool call the validators build: same ID,
parameters, context and timestamp, with the name replaced. -/
def withName (tc : ToolCall) (name : String) : ToolCall :=
  { ID := tc.ID
  , Name := name
  , Parameters := tc.Parameters
  , Context := tc.Context
  , Timestamp := tc.Timestamp }

/-- `ValidateToolCall` from the pkg `validation` package: schema lookup, on a
miss a fuzzy suggestion (bound 2) with the policy engine consulted on the
candidate bearing the suggested name, then parameter validation, then policy
evaluation, each branch assembling the final `ValidationResult` as in the
source. -/
def ValidateToolCall (st : GuardState) (tc : ToolCall) :
    GuardState × ValidationResult :=
  match GetToolSchema st tc.Name with
  | none =>
      let fm := FuzzyMatchToolName tc.Name (knownNames st) 2
      let suggestion := fm.1
      if suggestion ≠ "" then
        let suggestedTC := withName tc suggestion
        let ep := EvaluatePolicy st suggestedTC
        if ep.2.Action = "REWRITE" then
          (ep.1,
            { ToolCallID := tc.ID
            , Status := "rewritten"
            , Confidence := 0.95
            , Reason := "Tool name rewritten to '" ++ suggestion ++ "' by policy"
            , ExecutionAllowed := true
            , PolicyAction := "rewritten"
            , Modifications := [("name", GoVal.str suggestion)]
            , SuggestedCorrection := some (withName tc suggestion) })
        else
          (ep.1,
            { ToolCallID := tc.ID
            , Status := "rejected"
            , Confidence := 0.9
            , Reason := "Unknown tool name. Did you mean '" ++ suggestion ++ "'?"
            , SuggestedCorrection := some (withName tc suggestion)
            , ExecutionAllowed := false
            , PolicyAction := "rejected" })
      else
        (st,
          { ToolCallID := tc.ID
          , Status := "rejected"
          , Confidence := 1
          , Reason := "Unknown tool name"
          , ExecutionAllowed := false
          , PolicyAction := "rejected" })
  | some ts =>
      match ValidateParameters ts tc.Parameters with
      | some err =>
          (st,
            { ToolCallID := tc.ID
            , Status := "rejected"
            , Confidence := 1
            , Reason := "Parameter validation failed: " ++ err
            , ExecutionAllowed := false
            , PolicyAction := "rejected" })
      | none =>
          let ep := EvaluatePolicy st tc
          let pr := ep.2
          if pr.Action = "REJECT" then
            (ep.1,
              { ToolCallID := tc.ID
              , Status := "rejected"
              , Confidence := 1
              , Reason := pr.Reason
              , ExecutionAllowed := false
              , PolicyAction := "rejected" })
          else if pr.Action = "CONTEXT_REJECT" then
            (ep.1,
              { ToolCallID := tc.ID
              , Status := "rejected"
              , Confidence := 1
              , Reason := pr.Reason
              , ExecutionAllowed := false
              , PolicyAction := "rejected" })
          else if pr.Action = "REWRITE" then
            let target := if pr.Target = "" then tc.Name else pr.Target
            (ep.1,
              { ToolCallID := tc.ID
              , Status := "rewritten"
              , Confidence := 1
              , Reason := pr.Reason
              , ExecutionAllowed := true
              , PolicyAction := "rewritten"
              , Modifications := [("name", GoVal.str target)]
              , SuggestedCorrection := some (withName tc target) })
          else if pr.Action = "LOG" then
            (ep.1,
              { ToolCallID := tc.ID
              , Status := "approved"
              , Confidence := 1
              , Reason := pr.Reason
              , ExecutionAllowed := true
              , PolicyAction := "logged" })
          else if pr.Action = "ALLOW" then
            (ep.1,
              { ToolCallID := tc.ID
              , Status := "approved"
              , Confidence := 1
              , Reason := pr.Reason
              , ExecutionAllowed := true
              , PolicyAction := "approved" })
          else
            (ep.1,
              { ToolCallID := tc.ID
              , Status := "approved"
              , Confidence := 1
              , Reason := pr.Reason
              , ExecutionAllowed := true
              , PolicyAction := "approved" })

/-- `ValidateAndPolicy` from `pkg/internal/schema/schema.go`: starts from an
approved result; on a schema miss evaluates the policy engine on the original
call and, when that yields REWRITE and the fuzzy matcher (bound 2) finds a
suggestion, returns a rewritten result with confidence 1.0 and no
modifications; rejected paths there carry confidence 0.0. With a schema,
parameter validation then policy evaluation fill the result, the switch
without a default leaving unrecognised actions approved. -/
def ValidateAndPolicy (st : GuardState) (tc : ToolCall) :
    GuardState × ValidationResult :=
  match GetToolSchema st tc.Name with
  | none =>
      let ep := EvaluatePolicy st tc
      if ep.2.Action = "REWRITE" then
        let fm := FuzzyMatchToolName tc.Name (knownNames st) 2
        let suggestion := fm.1
        if suggestion ≠ "" then
          (ep.1,
            { ToolCallID := tc.ID
            , Status := "rewritten"
            , Confidence := 1
            , ExecutionAllowed := true
            , PolicyAction := "REWRITE"
            , SuggestedCorrection := some (withName tc suggestion)
            , Reason := "Did you mean '" ++ suggestion ++ "'?" })
        else
          (ep.1,
            { ToolCallID := tc.ID
            , Status := "rejected"
            , Confidence := 0
            , ExecutionAllowed := false
            , Reason := "Unknown tool name and no close match found"
            , PolicyAction := "REJECT" })
      else
        (ep.1,
          { ToolCallID := tc.ID
          , Status := "rejected"
          , Confidence := 0
          , ExecutionAllowed := false
          , Reason := "Unknown tool name"
          , PolicyAction := "REJECT" })
  | some ts =>
      match ValidateParameters ts tc.Parameters with
      | some err =>
          (st,
            { ToolCallID := tc.ID
            , Status := "rejected"
            , Confidence := 0
            , ExecutionAllowed := false
            , Reason := err
            , PolicyAction := "REJECT" })
      | none =>
          let ep := EvaluatePolicy st tc
          let pr := ep.2
          if pr.Action = "REJECT" ∨ pr.Action = "CONTEXT_REJECT" then
            (ep.1,
              { ToolCallID := tc.ID
              , Status := "rejected"
              , Confidence := 1
              , ExecutionAllowed := false
              , Reason := pr.Reason
              , PolicyAction := pr.Action })
          else if pr.Action = "ALLOW" then
            (ep.1,
              { ToolCallID := tc.ID
              , Status := "approved"
              , Confidence := 1
              , ExecutionAllowed := true
              , Reason := pr.Reason
              , PolicyAction := pr.Action })
          else if pr.Action = "LOG" then
            (ep.1,
              { ToolCallID := tc.ID
              , Status := "approved"
              , Confidence := 1
              , ExecutionAllowed := true
              , Reason := pr.Reason
              , PolicyAction := pr.Action })
          else if pr.Action = "REWRITE" then
            let target := if pr.Target = "" then tc.Name else pr.Target
            (ep.1,
              { ToolCallID := tc.ID
              , Status := "rewritten"
              , Confidence := 1
              , ExecutionAllowed := true
              , Reason := pr.Reason
              , PolicyAction := pr.Action
              , SuggestedCorrection := some (withName tc target)
              , Modifications := [("name", GoVal.str target)] })
          else
            (ep.1,
              { ToolCallID := tc.ID
              , Status := "approved"
              , Confidence := 1
              , ExecutionAllowed := true
              , Reason := pr.Reason
              , PolicyAction := pr.Action })

/-- The revision of `ValidateAndPolicy` in the standalone
`src/pkg/internal/schema/schema.go` file (the repository also carries the
newer revision embedded above as `ValidateAndPolicy`): this one drives the
policy step through `ApplyPolicy`, rejects with reason
"Policy rejected tool call", sets neither modifications nor a suggested
correction on a policy rewrite, and has no branch for `CONTEXT_REJECT`, which
therefore falls through with the initial approved/allowed fields. -/
def ValidateAndPolicyLegacy (st : GuardState) (tc : ToolCall) :
    GuardState × ValidationResult :=
  match GetToolSchema st tc.Name with
  | none =>
      let ap := ApplyPolicy st tc
      if ap.2 = "REWRITE" then
        let fm := FuzzyMatchToolName tc.Name (knownNames st) 2
        let suggestion := fm.1
        if suggestion ≠ "" then
          (ap.1,
            { ToolCallID := tc.ID
            , Status := "rewritten"
            , Confidence := 1
            , ExecutionAllowed := true
            , PolicyAction := "REWRITE"
            , SuggestedCorrection := some (withName tc suggestion)
            , Reason := "Did you mean '" ++ suggestion ++ "'?" })
        else
          (ap.1,
            { ToolCallID := tc.ID
            , Status := "rejected"
            , Confidence := 0
            , ExecutionAllowed := false
            , Reason := "Unknown tool name and no close match found"
            , PolicyAction := "REJECT" })
      else
        (ap.1,
          { ToolCallID := tc.ID
          , Status := "rejected"
          , Confidence := 0
          , ExecutionAllowed := false
          , Reason := "Unknown tool name"
          , PolicyAction := "REJECT" })
  | some ts =>
      match ValidateParameters ts tc.Parameters with
      | some err =>
          (st,
            { ToolCallID := tc.ID
            , Status := "rejected"
            , Confidence := 0
            , ExecutionAllowed := false
            , Reason := err
            , PolicyAction := "REJECT" })
      | none =>
          let ap := ApplyPolicy st tc
          let ptype := ap.2
          if ptype = "REJECT" then
            (ap.1,
              { ToolCallID := tc.ID
              , Status := "rejected"
              , Confidence := 1
              , ExecutionAllowed := false
              , Reason := "Policy rejected tool call"
              , PolicyAction := ptype })
          else if ptype = "ALLOW" then
            (ap.1,
              { ToolCallID := tc.ID
              , Status := "approved"
              , Confidence := 1
              , ExecutionAllowed := true
              , PolicyAction := ptype })
          else if ptype = "LOG" then
            (ap.1,
              { ToolCallID := tc.ID
              , Status := "approved"
              , Confidence := 1
              , ExecutionAllowed := true
              , PolicyAction := ptype })
          else if ptype = "REWRITE" then
            (ap.1,
              { ToolCallID := tc.ID
              , Status := "rewritten"
              , Confidence := 1
              , ExecutionAllowed := true
              , PolicyAction := ptype })
          else
            (ap.1,
              { ToolCallID := tc.ID
              , Status := "approved"
              , Confidence := 1
              , ExecutionAllowed := true
              , PolicyAction := ptype })

/-- `ValidateParameters` lifted to the state-passing shape of the other
operations: the Go function reads no global registry and writes none, so the
state passes through unchanged. -/
def ValidateParametersSt (st : GuardState) (schema : ToolSchema)
    (params : List (String × GoVal)) : GuardState × Option String :=
  (st, ValidateParameters schema params)

/-! ### Helper lemmas -/

theorem cacheAdd_toolSchemas (st : GuardState) (c : Expr) :
    (cacheAdd st c).toolSchemas = st.toolSchemas := by
  unfold cacheAdd
  split <;> rfl

theorem cacheAdd_policies (st : GuardState) (c : Expr) :
    (cacheAdd st c).policies = st.policies := by
  unfold cacheAdd
  split <;> rfl

theorem evalPolicyLoop_toolSchemas (l : List Policy) :
    ∀ (st : GuardState) (tc : ToolCall),
      (evalPolicyLoop st l tc).1.toolSchemas = st.toolSchemas := by
  induction l with
  | nil => intro st tc; rfl
  | cons p rest ih =>
      intro st tc
      unfold evalPolicyLoop
      cases hc : p.Condition with
      | none => rfl
      | some c =>
          cases hr : runCond c tc with
          | error e => simp only [hr, ih, cacheAdd_toolSchemas]
          | ok b =>
              cases b with
              | true => simp only [hr, cacheAdd_toolSchemas]
              | false => simp only [hr, ih, cacheAdd_toolSchemas]

theorem evalPolicyLoop_policies (l : List Policy) :
    ∀ (st : GuardState) (tc : ToolCall),
      (evalPolicyLoop st l tc).1.policies = st.policies := by
  induction l with
  | nil => intro st tc; rfl
  | cons p rest ih =>
      intro st tc
      unfold evalPolicyLoop
      cases hc : p.Condition with
      | none => rfl
      | some c =>
          cases hr : runCond c tc with
          | error e => simp only [hr, ih, cacheAdd_policies]
          | ok b =>
              cases b with
              | true => simp only [hr, cacheAdd_policies]
              | false => simp only [hr, ih, cacheAdd_policies]

theorem evalPolicyLoop_result_state_free (l : List Policy) :
    ∀ (st st' : GuardState) (tc : ToolCall),
      (evalPolicyLoop st l tc).2 = (evalPolicyLoop st' l tc).2 := by
  induction l with
  | nil => intro st st' tc; rfl
  | cons p rest ih =>
      intro st st' tc
      unfold evalPolicyLoop
      cases hc : p.Condition with
      | none => rfl
      | some c =>
          cases hr : runCond c tc with
          | error e => simp only [hr, ih (cacheAdd st c) (cacheAdd st' c)]
          | ok b =>
              cases b with
              | true => simp only [hr]
              | false => simp only [hr, ih (cacheAdd st c) (cacheAdd st' c)]

theorem EvaluatePolicy_toolSchemas (st : GuardState) (tc : ToolCall) :
    (EvaluatePolicy st tc).1.toolSchemas = st.toolSchemas :=
  evalPolicyLoop_toolSchemas _ st tc

theorem EvaluatePolicy_policies (st : GuardState) (tc : ToolCall) :
    (EvaluatePolicy st tc).1.policies = st.policies :=
  evalPolicyLoop_policies _ st tc

/-! ### The claims -/

/-- C1: for every `ValidationResult` returned by the validator
(`ValidateToolCall` in the validation package and `ValidateAndPolicy` in the
schema package, in both of its revisions), `execution_allowed` is true if and
only if `status` is "approved" or "rewritten". -/
theorem c1_execution_allowed_iff_status (st : GuardState) (tc : ToolCall) :
    ((ValidateToolCall st tc).2.ExecutionAllowed = true ↔
      ((ValidateToolCall st tc).2.Status = "approved" ∨
        (ValidateToolCall st tc).2.Status = "rewritten")) ∧
    ((ValidateAndPolicy st tc).2.ExecutionAllowed = true ↔
      ((ValidateAndPolicy st tc).2.Status = "approved" ∨
        (ValidateAndPolicy st tc).2.Status = "rewritten")) ∧
    ((ValidateAndPolicyLegacy st tc).2.ExecutionAllowed = true ↔
      ((ValidateAndPolicyLegacy st tc).2.Status = "approved" ∨
        (ValidateAndPolicyLegacy st tc).2.Status = "rewritten")) := by
  refine ⟨?_, ?_, ?_⟩
  · unfold ValidateToolCall
    dsimp only
    repeat' split
    all_goals simp
  · unfold ValidateAndPolicy
    dsimp only
    repeat' split
    all_goals simp
  · unfold ValidateAndPolicyLegacy
    dsimp only
    repeat' split
    all_goals simp

/-- C2, counterexample: a string parameter constrained by an `enum` (and a
`pattern`) passes `ValidateParameters` with a value outside the enum (and not
matching the pattern): the claim that `validate_parameters` enforces all four
string constraints fails — only `max_length` is checked. -/
theorem c2_counterexample :
    ValidateParameters
        { Name := "t"
        , Parameters :=
            [("u", { Typ := "string", Required := true, Enum := ["C", "F"]
                   , Pattern := "C|F", MaxLength := 0 })] }
        [("u", GoVal.str "nope")] = none ∧
    "nope" ∉ ["C", "F"] := by
  exact ⟨rfl, by decide⟩

/-- C2, amended: for a string-typed parameter present as a string value,
`ValidateParameters` (via the per-parameter check of its loop body) fails if
and only if `max_length` is positive and exceeded — the `enum` and `pattern`
constraints of the parameter schema are never consulted (and no `min_length`
field exists); when it fails, the message is the max-length one. -/
theorem c2_string_constraints (toolName paramName : String)
    (ps : ParameterSchema) (params : List (String × GoVal)) (s : String)
    (hval : lookupStr params paramName = some (GoVal.str s))
    (hty : ps.Typ = "string") :
    (ValidateParameters { Name := toolName, Parameters := [(paramName, ps)] } params
        = none ↔ ¬(ps.MaxLength > 0 ∧ (s.length : Int) > ps.MaxLength)) ∧
    (ps.MaxLength > 0 ∧ (s.length : Int) > ps.MaxLength →
      ValidateParameters { Name := toolName, Parameters := [(paramName, ps)] } params
        = some ("parameter " ++ paramName ++ " exceeds max length")) := by
  unfold ValidateParameters ValidateParametersWith checkParam
  simp only [hval, hty, if_pos rfl]
  constructor
  · split <;> simp_all [ValidateParametersWith]
  · intro h
    simp [h]

/-- C2, witness for the amended theorem: a concrete over-long string fails
with the max-length message, and a string within the bound passes. -/
theorem c2_string_constraints_witness :
    lookupStr [("u", GoVal.str "abc")] "u" = some (GoVal.str "abc") ∧
    (ParameterSchema.mk "string" true ["C", "F"] "C|F" 2).Typ = "string" ∧
    ValidateParameters
        { Name := "t"
        , Parameters := [("u", ParameterSchema.mk "string" true ["C", "F"] "C|F" 2)] }
        [("u", GoVal.str "abc")]
      = some ("parameter " ++ "u" ++ " exceeds max length") := by
  refine ⟨rfl, rfl, ?_⟩
  exact (c2_string_constraints "t" "u"
    (ParameterSchema.mk "string" true ["C", "F"] "C|F" 2)
    [("u", GoVal.str "abc")] "abc" rfl rfl).2 (by decide)

/-- C3, counterexample: the evaluation environment built by
`evaluateCondition` contains a callable binding named `now`, which is neither
`len` nor `contains` — the claimed two-function allow-list does not hold of
the code. -/
theorem c3_counterexample :
    "now" ∈ envFuncs (condEnv { Name := "t" }) ∧
    ¬("now" = "len" ∨ "now" = "contains") := by
  exact ⟨by decide, by decide⟩

/-- C3, amended: the callable functions in the expression environment are
exactly `len`, `contains` and `now` (in that installation order), for every
tool call; `now` closes over the wall clock, so only conditions avoiding it
are deterministic — the environment construction itself is a pure function
of the tool call. -/
theorem c3_env_functions (tc : ToolCall) :
    envFuncs (condEnv tc) = ["len", "contains", "now"] := by
  rfl

theorem vpw_eq_none_iff (entries : List (String × ParameterSchema))
    (params : List (String × GoVal)) :
    ValidateParametersWith entries params = none ↔
      ∀ e ∈ entries, checkParam e.1 e.2 params = none := by
  induction entries with
  | nil => simp [ValidateParametersWith]
  | cons hd tl ih =>
      obtain ⟨n, ps⟩ := hd
      unfold ValidateParametersWith
      cases hc : checkParam n ps params with
      | some e => simp [hc]
      | none => simpa [hc] using ih

theorem vpw_eq_some_of_uniform (entries : List (String × ParameterSchema))
    (params : List (String × GoVal)) (m : String)
    (hex : ∃ e ∈ entries, checkParam e.1 e.2 params ≠ none)
    (huni : ∀ e ∈ entries, checkParam e.1 e.2 params ≠ none →
      checkParam e.1 e.2 params = some m) :
    ValidateParametersWith entries params = some m := by
  induction entries with
  | nil => simp at hex
  | cons hd tl ih =>
      obtain ⟨n, ps⟩ := hd
      unfold ValidateParametersWith
      cases hc : checkParam n ps params with
      | some e =>
          have := huni (n, ps) (List.mem_cons_self _ _) (by simp [hc])
          simp [hc] at this
          simp [this]
      | none =>
          obtain ⟨e0, he0, hf0⟩ := hex
          rcases List.mem_cons.mp he0 with h | h
          · subst h; exact absurd hc hf0
          · exact ih ⟨e0, h, hf0⟩ (fun e he hf => huni e (List.mem_cons_of_mem _ he) hf)

/-- C9, counterexample: with two required parameters both missing, the two
iteration orders of the same (unordered) parameter map return different
failure descriptions, so the returned failure is not determined by the
declaration: Go leaves the `range` order of the parameter map unspecified. -/
theorem c9_counterexample :
    List.Perm
      [("a", ParameterSchema.mk "string" true [] "" 0),
        ("b", ParameterSchema.mk "string" true [] "" 0)]
      [("b", ParameterSchema.mk "string" true [] "" 0),
        ("a", ParameterSchema.mk "string" true [] "" 0)] ∧
    ValidateParametersWith
        [("a", ParameterSchema.mk "string" true [] "" 0),
          ("b", ParameterSchema.mk "string" true [] "" 0)] [] ≠
      ValidateParametersWith
        [("b", ParameterSchema.mk "string" true [] "" 0),
          ("a", ParameterSchema.mk "string" true [] "" 0)] [] := by
  exact ⟨by decide, by decide⟩

/-- C9, amended: `validate_parameters` examines the declared parameters in
the iteration order of the parameter map (which Go does not fix to
declaration order) and short-circuits: the first failing parameter in that
order determines the single returned failure; and whenever all failing
parameters agree on one failure description — in particular when at most one
parameter fails — the result is independent of the iteration order. -/
theorem c9_validate_parameters_deterministic :
    (∀ (n : String) (ps : ParameterSchema) (rest : List (String × ParameterSchema))
        (params : List (String × GoVal)) (e : String),
      checkParam n ps params = some e →
      ValidateParametersWith ((n, ps) :: rest) params = some e) ∧
    (∀ (entries entries' : List (String × ParameterSchema))
        (params : List (String × GoVal)),
      entries.Perm entries' →
      (∀ e1 ∈ entries, ∀ e2 ∈ entries,
        checkParam e1.1 e1.2 params ≠ none → checkParam e2.1 e2.2 params ≠ none →
        checkParam e1.1 e1.2 params = checkParam e2.1 e2.2 params) →
      ValidateParametersWith entries params = ValidateParametersWith entries' params) := by
  constructor
  · intro n ps rest params e hc
    unfold ValidateParametersWith
    simp [hc]
  · intro entries entries' params hperm huniq
    by_cases hex : ∃ e ∈ entries, checkParam e.1 e.2 params ≠ none
    · obtain ⟨e0, he0, hf0⟩ := hex
      cases hm : checkParam e0.1 e0.2 params with
      | none => exact absurd hm hf0
      | some m =>
          have hA : ValidateParametersWith entries params = some m :=
            vpw_eq_some_of_uniform entries params m ⟨e0, he0, hf0⟩
              (fun e he hf => (huniq e he e0 he0 hf hf0).trans hm)
          have hB : ValidateParametersWith entries' params = some m :=
            vpw_eq_some_of_uniform entries' params m
              ⟨e0, hperm.mem_iff.mp he0, hf0⟩
              (fun e he hf =>
                (huniq e (hperm.mem_iff.mpr he) e0 he0 hf hf0).trans hm)
          rw [hA, hB]
    · push_neg at hex
      have hA : ValidateParametersWith entries params = none :=
        (vpw_eq_none_iff entries params).mpr hex
      have hB : ValidateParametersWith entries' params = none :=
        (vpw_eq_none_iff entries' params).mpr
          (fun e he => hex e (hperm.mem_iff.mpr he))
      rw [hA, hB]

/-- C9, witness for the amended theorem: the short-circuit at a concrete
failing first parameter, and order-independence of a concrete pair of
iteration orders in which exactly one parameter fails. -/
theorem c9_witness :
    checkParam "a" (ParameterSchema.mk "string" true [] "" 0) []
        = some "missing required parameter: a" ∧
    ValidateParametersWith
        [("a", ParameterSchema.mk "string" true [] "" 0),
          ("b", ParameterSchema.mk "string" false [] "" 0)] []
      = some "missing required parameter: a" ∧
    ValidateParametersWith
        [("a", ParameterSchema.mk "string" true [] "" 0),
          ("b", ParameterSchema.mk "string" false [] "" 0)] []
      = ValidateParametersWith
        [("b", ParameterSchema.mk "string" false [] "" 0),
          ("a", ParameterSchema.mk "string" true [] "" 0)] [] := by
  refine ⟨rfl, ?_, ?_⟩
  · exact c9_validate_parameters_deterministic.1 "a"
      (ParameterSchema.mk "string" true [] "" 0)
      [("b", ParameterSchema.mk "string" false [] "" 0)] []
      "missing required parameter: a" rfl
  · exact c9_validate_parameters_deterministic.2
      [("a", ParameterSchema.mk "string" true [] "" 0),
        ("b", ParameterSchema.mk "string" false [] "" 0)]
      [("b", ParameterSchema.mk "string" false [] "" 0),
        ("a", ParameterSchema.mk "string" true [] "" 0)] []
      (by decide) (by decide)

/-- C4, counterexample: a wildcard policy of priority 5 is considered before
a specific policy of priority 0 — `GetAllPolicies` re-sorts the merged list
by priority, so wildcards do not wait for all specific policies — and the
engine's decision at such a registry is the wildcard's. -/
theorem c4_counterexample :
    GetAllPolicies
        (RegisterPolicy (RegisterPolicy { }
          { ToolName := "t", Typ := "ALLOW", Priority := 0 })
          { ToolName := "*", Typ := "REJECT", Priority := 5 }) "t"
      = [{ ToolName := "*", Typ := "REJECT", Priority := 5 },
          { ToolName := "t", Typ := "ALLOW", Priority := 0 }] ∧
    (EvaluatePolicy
        (RegisterPolicy (RegisterPolicy { }
          { ToolName := "t", Typ := "ALLOW", Priority := 0 })
          { ToolName := "*", Typ := "REJECT", Priority := 5 })
        { Name := "t" }).2.PolicyID = "*:REJECT" := by
  exact ⟨rfl, rfl⟩

/-- C4, amended: the ordered list the engine consults merges the policies
registered for the specific tool name with the wildcard policies and is
sorted by priority descending (a permutation of specific ++ wildcard); a
wildcard policy therefore precedes any specific policy of strictly lower
priority, and wildcards come after specifics only within equal priority. -/
theorem c4_policy_order (st : GuardState) (toolName : String) :
    List.Sorted priGE (GetAllPolicies st toolName) ∧
    (GetAllPolicies st toolName).Perm
      ((lookupStr st.policies toolName).getD []
        ++ (lookupStr st.policies "*").getD []) := by
  exact ⟨List.sorted_insertionSort priGE _, List.perm_insertionSort priGE _⟩

/-- A policy matches a tool call: its condition is empty, or evaluates to
`true` against the call's environment. -/
def policyMatches (p : Policy) (tc : ToolCall) : Prop :=
  p.Condition = none ∨ ∃ c, p.Condition = some c ∧ runCond c tc = Except.ok true

/-- The `PolicyResult` the engine returns when a given policy is the first
match: the unconditional-branch result for an empty condition, the
conditional-branch result otherwise. -/
def matchResult (p : Policy) (tc : ToolCall) : PolicyResult :=
  match p.Condition with
  | none => uncondResult p
  | some _ => condResult p tc

theorem evalPolicyLoop_head_match (st : GuardState) (p : Policy)
    (rest : List Policy) (tc : ToolCall) (hm : policyMatches p tc) :
    (evalPolicyLoop st (p :: rest) tc).2 = matchResult p tc := by
  unfold evalPolicyLoop matchResult
  rcases hm with h | ⟨c, hc, hr⟩
  · simp [h]
  · simp [hc, hr]

/-- C7: in a registry holding exactly two policies for the tool of the
request, both matching, the engine's decision is the strictly
higher-priority policy's whichever was registered first, and on a priority
tie the decision is the policy's registered earlier. -/
theorem c7_priority_insertion_order (st0 : GuardState) (p1 p2 : Policy)
    (tc : ToolCall) (hp : st0.policies = [])
    (h1 : p1.ToolName = tc.Name) (h2 : p2.ToolName = tc.Name)
    (hw : tc.Name ≠ "*")
    (m1 : policyMatches p1 tc) (m2 : policyMatches p2 tc) :
    (p2.Priority < p1.Priority →
      (EvaluatePolicy (RegisterPolicy (RegisterPolicy st0 p1) p2) tc).2
        = matchResult p1 tc) ∧
    (p1.Priority < p2.Priority →
      (EvaluatePolicy (RegisterPolicy (RegisterPolicy st0 p1) p2) tc).2
        = matchResult p2 tc) ∧
    (p1.Priority = p2.Priority →
      (EvaluatePolicy (RegisterPolicy (RegisterPolicy st0 p1) p2) tc).2
        = matchResult p1 tc) := by
  have e1 : (RegisterPolicy st0 p1).policies = [(tc.Name, [p1])] := by
    unfold RegisterPolicy
    rw [hp, h1]
    rfl
  have e2 : (RegisterPolicy (RegisterPolicy st0 p1) p2).policies
      = [(tc.Name, List.orderedInsert priGE p1 [p2])] := by
    generalize hgen : RegisterPolicy st0 p1 = st1 at e1 ⊢
    unfold RegisterPolicy
    rw [e1, h2]
    simp [lookupStr, mapSet, sortPolicies]
  have e3 : GetAllPolicies (RegisterPolicy (RegisterPolicy st0 p1) p2) tc.Name
      = sortPolicies (List.orderedInsert priGE p1 [p2]) := by
    unfold GetAllPolicies
    rw [e2]
    simp [lookupStr, hw]
  by_cases hle : priGE p1 p2
  · have e4 : GetAllPolicies (RegisterPolicy (RegisterPolicy st0 p1) p2) tc.Name
        = [p1, p2] := by
      rw [e3]
      simp [sortPolicies, List.orderedInsert, hle]
    refine ⟨?_, ?_, ?_⟩
    · intro _
      unfold EvaluatePolicy
      rw [e4]
      exact evalPolicyLoop_head_match _ _ _ _ m1
    · intro hlt
      exact absurd hle (by simpa [priGE] using hlt)
    · intro _
      unfold EvaluatePolicy
      rw [e4]
      exact evalPolicyLoop_head_match _ _ _ _ m1
  · have hge : priGE p2 p1 := le_of_lt (lt_of_not_le hle)
    have e4 : GetAllPolicies (RegisterPolicy (RegisterPolicy st0 p1) p2) tc.Name
        = [p2, p1] := by
      rw [e3]
      simp [sortPolicies, List.orderedInsert, hle, hge]
    refine ⟨?_, ?_, ?_⟩
    · intro hlt
      exact absurd (le_of_lt hlt) hle
    · intro _
      unfold EvaluatePolicy
      rw [e4]
      exact evalPolicyLoop_head_match _ _ _ _ m2
    · intro heq
      exact absurd (le_of_eq heq.symm) hle

/-- C7, witness: two concrete unconditional policies for the same tool with
priorities 1 < 2; the engine's decision is the priority-2 policy's result. -/
theorem c7_witness :
    (GuardState.mk [] [] []).policies = [] ∧
    (Policy.mk "t" "REJECT" none "r1" 2 "").ToolName = (ToolCall.mk "" "t" [] {} 0).Name ∧
    (Policy.mk "t" "ALLOW" none "" 1 "").ToolName = (ToolCall.mk "" "t" [] {} 0).Name ∧
    (ToolCall.mk "" "t" [] {} 0).Name ≠ "*" ∧
    (Policy.mk "t" "ALLOW" none "" 1 "").Priority
      < (Policy.mk "t" "REJECT" none "r1" 2 "").Priority ∧
    (EvaluatePolicy
        (RegisterPolicy (RegisterPolicy (GuardState.mk [] [] [])
          (Policy.mk "t" "REJECT" none "r1" 2 ""))
          (Policy.mk "t" "ALLOW" none "" 1 ""))
        (ToolCall.mk "" "t" [] {} 0)).2
      = matchResult (Policy.mk "t" "REJECT" none "r1" 2 "") (ToolCall.mk "" "t" [] {} 0) := by
  refine ⟨rfl, rfl, rfl, by decide, by decide, ?_⟩
  exact (c7_priority_insertion_order (GuardState.mk [] [] [])
    (Policy.mk "t" "REJECT" none "r1" 2 "") (Policy.mk "t" "ALLOW" none "" 1 "")
    (ToolCall.mk "" "t" [] {} 0) rfl rfl rfl (by decide)
    (Or.inl rfl) (Or.inl rfl)).1 (by decide)

theorem evalPolicyLoop_all_skip (l : List Policy) :
    ∀ (st : GuardState) (tc : ToolCall),
      (∀ p ∈ l, ∃ c, p.Condition = some c ∧ runCond c tc ≠ Except.ok true) →
      (evalPolicyLoop st l tc).2 = defaultAllowResult := by
  induction l with
  | nil => intro st tc _; rfl
  | cons p rest ih =>
      intro st tc hall
      obtain ⟨c, hc, hne⟩ := hall p (List.mem_cons_self _ _)
      have hrest := fun q hq => hall q (List.mem_cons_of_mem _ hq)
      unfold evalPolicyLoop
      rw [hc]
      cases hr : runCond c tc with
      | error e => simpa [hr] using ih (cacheAdd st c) tc hrest
      | ok b =>
          cases b with
          | true => exact absurd hr hne
          | false => simpa [hr] using ih (cacheAdd st c) tc hrest

/-- C8: a policy whose condition evaluates with an error is skipped — the
loop's outcome is that of the remaining policies, no error reaching the
caller — and when no policy matches at all the engine returns the default:
action ALLOW, `matched` false, policy id `default:allow`. -/
theorem c8_skip_and_default :
    (∀ (st : GuardState) (p : Policy) (rest : List Policy) (tc : ToolCall)
        (c : Expr) (e : String),
      p.Condition = some c → runCond c tc = Except.error e →
      (evalPolicyLoop st (p :: rest) tc).2 = (evalPolicyLoop st rest tc).2) ∧
    (∀ (st : GuardState) (tc : ToolCall),
      (∀ p ∈ GetAllPolicies st tc.Name,
        ∃ c, p.Condition = some c ∧ runCond c tc ≠ Except.ok true) →
      (EvaluatePolicy st tc).2 = defaultAllowResult ∧
      (EvaluatePolicy st tc).2.Action = "ALLOW" ∧
      (EvaluatePolicy st tc).2.Matched = false ∧
      (EvaluatePolicy st tc).2.PolicyID = "default:allow") := by
  constructor
  · intro st p rest tc c e hc hr
    have step : evalPolicyLoop st (p :: rest) tc
        = evalPolicyLoop (cacheAdd st c) rest tc := by
      conv_lhs => rw [evalPolicyLoop.eq_def]
      simp [hc, hr]
    rw [step]
    exact evalPolicyLoop_result_state_free rest (cacheAdd st c) st tc
  · intro st tc hall
    have h := evalPolicyLoop_all_skip (GetAllPolicies st tc.Name) st tc hall
    exact ⟨h, by simp only [EvaluatePolicy, h]; rfl, by simp only [EvaluatePolicy, h]; rfl,
      by simp only [EvaluatePolicy, h]; rfl⟩

/-- C8, witness: a concrete policy whose condition names an identifier
outside the environment evaluates with an error and is skipped, and a
registry holding only that policy yields the default-allow result. -/
theorem c8_witness :
    (Policy.mk "t" "REJECT" (some (Expr.var "nope" [])) "" 0 "").Condition
      = some (Expr.var "nope" []) ∧
    runCond (Expr.var "nope" []) (ToolCall.mk "" "t" [] {} 0)
      = Except.error "failed to evaluate condition: unknown identifier: nope" ∧
    (evalPolicyLoop (GuardState.mk [] [] [])
        [Policy.mk "t" "REJECT" (some (Expr.var "nope" [])) "" 0 ""]
        (ToolCall.mk "" "t" [] {} 0)).2
      = (evalPolicyLoop (GuardState.mk [] [] []) [] (ToolCall.mk "" "t" [] {} 0)).2 ∧
    (EvaluatePolicy
        (GuardState.mk [] [("t", [Policy.mk "t" "REJECT" (some (Expr.var "nope" [])) "" 0 ""])] [])
        (ToolCall.mk "" "t" [] {} 0)).2 = defaultAllowResult := by
  refine ⟨rfl, rfl, ?_, ?_⟩
  · exact c8_skip_and_default.1 (GuardState.mk [] [] [])
      (Policy.mk "t" "REJECT" (some (Expr.var "nope" [])) "" 0 "") []
      (ToolCall.mk "" "t" [] {} 0) (Expr.var "nope" [])
      "failed to evaluate condition: unknown identifier: nope" rfl rfl
  · exact (c8_skip_and_default.2
      (GuardState.mk [] [("t", [Policy.mk "t" "REJECT" (some (Expr.var "nope" [])) "" 0 ""])] [])
      (ToolCall.mk "" "t" [] {} 0)
      (by
        intro p hp
        have hp' : p = Policy.mk "t" "REJECT" (some (Expr.var "nope" [])) "" 0 "" := by
          simpa [GetAllPolicies, lookupStr, sortPolicies] using hp
        subst hp'
        refine ⟨Expr.var "nope" [], rfl, ?_⟩
        rw [show runCond (Expr.var "nope" []) (ToolCall.mk "" "t" [] {} 0)
            = Except.error "failed to evaluate condition: unknown identifier: nope"
          from rfl]
        simp)).1

/-- C5, counterexample: a request (`ax`) with no schema, a fuzzy suggestion
(`ab`) within distance 2, and a REWRITE policy matching the candidate bearing
the suggested name — yet `ValidateAndPolicy` (the schema package's validator)
rejects it with confidence 0 and no modifications: that function consults the
policy engine on the original name, not the candidate, so the claimed
rewritten/0.95 result does not hold of it. -/
theorem c5_counterexample :
    GetToolSchema
        (GuardState.mk [("ab", ToolSchema.mk "ab" [])]
          [("ab", [Policy.mk "ab" "REWRITE" none "" 0 ""])] []) "ax" = none ∧
    (FuzzyMatchToolName "ax"
        (knownNames (GuardState.mk [("ab", ToolSchema.mk "ab" [])]
          [("ab", [Policy.mk "ab" "REWRITE" none "" 0 ""])] [])) 2).1 = "ab" ∧
    (EvaluatePolicy
        (GuardState.mk [("ab", ToolSchema.mk "ab" [])]
          [("ab", [Policy.mk "ab" "REWRITE" none "" 0 ""])] [])
        (withName (ToolCall.mk "" "ax" [] {} 0) "ab")).2.Action = "REWRITE" ∧
    (ValidateAndPolicy
        (GuardState.mk [("ab", ToolSchema.mk "ab" [])]
          [("ab", [Policy.mk "ab" "REWRITE" none "" 0 ""])] [])
        (ToolCall.mk "" "ax" [] {} 0)).2.Status = "rejected" ∧
    (ValidateAndPolicy
        (GuardState.mk [("ab", ToolSchema.mk "ab" [])]
          [("ab", [Policy.mk "ab" "REWRITE" none "" 0 ""])] [])
        (ToolCall.mk "" "ax" [] {} 0)).2.Confidence = 0 ∧
    (0 : ℚ) ≠ 0.95 ∧
    (ValidateAndPolicy
        (GuardState.mk [("ab", ToolSchema.mk "ab" [])]
          [("ab", [Policy.mk "ab" "REWRITE" none "" 0 ""])] [])
        (ToolCall.mk "" "ax" [] {} 0)).2.Modifications = [] := by
  refine ⟨rfl, rfl, rfl, rfl, rfl, by norm_num, rfl⟩

/-- C5, amended (restricted to `ValidateToolCall`, the validation package's
validator): on a schema miss with a fuzzy suggestion within distance 2,
the policy engine is evaluated on the candidate bearing the suggested name,
and if that candidate's policy result is REWRITE the result is `rewritten`
with confidence 0.95, a suggested correction carrying the suggested name,
modifications `{name: suggestion}`, and execution allowed.
(`ValidateAndPolicy` instead evaluates the engine on the original request
and, on REWRITE with a suggestion, answers with confidence 1.0 and no
modifications.) -/
theorem c5_fuzzy_rewrite (st : GuardState) (tc : ToolCall) (sugg : String)
    (d : Int)
    (hschema : GetToolSchema st tc.Name = none)
    (hfuzzy : FuzzyMatchToolName tc.Name (knownNames st) 2 = (sugg, d))
    (hne : sugg ≠ "")
    (hrw : (EvaluatePolicy st (withName tc sugg)).2.Action = "REWRITE") :
    (ValidateToolCall st tc).2
      = { ToolCallID := tc.ID
        , Status := "rewritten"
        , Confidence := 0.95
        , Reason := "Tool name rewritten to '" ++ sugg ++ "' by policy"
        , Modifications := [("name", GoVal.str sugg)]
        , ExecutionAllowed := true
        , SuggestedCorrection := some (withName tc sugg)
        , PolicyAction := "rewritten" } := by
  simp only [ValidateToolCall, hschema, hfuzzy]
  simp [hne, hrw]

/-- C5, witness: the concrete registry of the counterexample drives
`ValidateToolCall` (unlike `ValidateAndPolicy`) to the claimed
rewritten/0.95 result. -/
theorem c5_witness :
    GetToolSchema
        (GuardState.mk [("ab", ToolSchema.mk "ab" [])]
          [("ab", [Policy.mk "ab" "REWRITE" none "" 0 ""])] []) "ax" = none ∧
    FuzzyMatchToolName "ax"
        (knownNames (GuardState.mk [("ab", ToolSchema.mk "ab" [])]
          [("ab", [Policy.mk "ab" "REWRITE" none "" 0 ""])] [])) 2 = ("ab", 1) ∧
    (ValidateToolCall
        (GuardState.mk [("ab", ToolSchema.mk "ab" [])]
          [("ab", [Policy.mk "ab" "REWRITE" none "" 0 ""])] [])
        (ToolCall.mk "" "ax" [] {} 0)).2
      = { ToolCallID := ""
        , Status := "rewritten"
        , Confidence := 0.95
        , Reason := "Tool name rewritten to '" ++ "ab" ++ "' by policy"
        , Modifications := [("name", GoVal.str "ab")]
        , ExecutionAllowed := true
        , SuggestedCorrection := some (withName (ToolCall.mk "" "ax" [] {} 0) "ab")
        , PolicyAction := "rewritten" } := by
  refine ⟨rfl, rfl, ?_⟩
  exact c5_fuzzy_rewrite
    (GuardState.mk [("ab", ToolSchema.mk "ab" [])]
      [("ab", [Policy.mk "ab" "REWRITE" none "" 0 ""])] [])
    (ToolCall.mk "" "ax" [] {} 0) "ab" 1 rfl rfl (by decide) rfl

/-- C6, counterexample: with no schemas at all (hence no candidate within
distance 2) and no policies, `ValidateAndPolicy` — one of the two cited
validator functions — rejects with reason "Unknown tool name" but
confidence 0.0, not the claimed 1.0. -/
theorem c6_counterexample :
    GetToolSchema (GuardState.mk [] [] []) "foo" = none ∧
    FuzzyMatchToolName "foo" (knownNames (GuardState.mk [] [] [])) 2 = ("", -1) ∧
    (ValidateAndPolicy (GuardState.mk [] [] [])
        (ToolCall.mk "" "foo" [] {} 0)).2.Status = "rejected" ∧
    (ValidateAndPolicy (GuardState.mk [] [] [])
        (ToolCall.mk "" "foo" [] {} 0)).2.Reason = "Unknown tool name" ∧
    (ValidateAndPolicy (GuardState.mk [] [] [])
        (ToolCall.mk "" "foo" [] {} 0)).2.Confidence = 0 ∧
    (0 : ℚ) ≠ 1 := by
  refine ⟨rfl, rfl, rfl, rfl, rfl, by decide⟩

/-- C6, amended (restricted to `ValidateToolCall`, the validation package's
validator): a request whose tool name has no schema and no fuzzy candidate
within distance 2 is rejected with confidence 1.0, reason
"Unknown tool name" and no suggested correction. (`ValidateAndPolicy`
returns the same status and reason but confidence 0.0 on that path.) -/
theorem c6_unknown_tool (st : GuardState) (tc : ToolCall)
    (hschema : GetToolSchema st tc.Name = none)
    (hfuzzy : FuzzyMatchToolName tc.Name (knownNames st) 2 = ("", -1)) :
    (ValidateToolCall st tc).2
      = { ToolCallID := tc.ID
        , Status := "rejected"
        , Confidence := 1
        , Reason := "Unknown tool name"
        , Modifications := []
        , ExecutionAllowed := false
        , SuggestedCorrection := none
        , PolicyAction := "rejected" } := by
  simp only [ValidateToolCall, hschema, hfuzzy]
  simp

/-- C6, witness: the empty registry and the unknown name `foo` drive
`ValidateToolCall` to the rejected/1.0 result with no correction. -/
theorem c6_witness :
    GetToolSchema (GuardState.mk [] [] []) "foo" = none ∧
    FuzzyMatchToolName "foo" (knownNames (GuardState.mk [] [] [])) 2 = ("", -1) ∧
    (ValidateToolCall (GuardState.mk [] [] []) (ToolCall.mk "" "foo" [] {} 0)).2
      = { ToolCallID := ""
        , Status := "rejected"
        , Confidence := 1
        , Reason := "Unknown tool name"
        , Modifications := []
        , ExecutionAllowed := false
        , SuggestedCorrection := none
        , PolicyAction := "rejected" } := by
  refine ⟨rfl, rfl, ?_⟩
  exact c6_unknown_tool (GuardState.mk [] [] []) (ToolCall.mk "" "foo" [] {} 0) rfl rfl

/-- C10: every validation operation — `ValidateToolCall`, `ValidateAndPolicy`
(both revisions), `EvaluatePolicy` and `ValidateParameters` — leaves the
schema registry and the policy registry exactly unchanged (only the
expression cache may grow); only the register/load operations mutate the
registries. -/
theorem c10_validation_preserves_registries (st : GuardState) (tc : ToolCall)
    (schema : ToolSchema) (params : List (String × GoVal)) :
    ((ValidateToolCall st tc).1.toolSchemas = st.toolSchemas ∧
      (ValidateToolCall st tc).1.policies = st.policies) ∧
    ((ValidateAndPolicy st tc).1.toolSchemas = st.toolSchemas ∧
      (ValidateAndPolicy st tc).1.policies = st.policies) ∧
    ((ValidateAndPolicyLegacy st tc).1.toolSchemas = st.toolSchemas ∧
      (ValidateAndPolicyLegacy st tc).1.policies = st.policies) ∧
    ((EvaluatePolicy st tc).1.toolSchemas = st.toolSchemas ∧
      (EvaluatePolicy st tc).1.policies = st.policies) ∧
    (ValidateParametersSt st schema params).1 = st := by
  refine ⟨⟨?_, ?_⟩, ⟨?_, ?_⟩, ⟨?_, ?_⟩,
    ⟨EvaluatePolicy_toolSchemas st tc, EvaluatePolicy_policies st tc⟩, rfl⟩
  all_goals
    first
      | (unfold ValidateToolCall
         dsimp only
         repeat' split
         all_goals
           simp [EvaluatePolicy_toolSchemas, EvaluatePolicy_policies])
      | (unfold ValidateAndPolicy
         dsimp only
         repeat' split
         all_goals
           simp [EvaluatePolicy_toolSchemas, EvaluatePolicy_policies])
      | (unfold ValidateAndPolicyLegacy ApplyPolicy
         dsimp only
         repeat' split
         all_goals
           simp [EvaluatePolicy_toolSchemas, EvaluatePolicy_policies])

end HGuard
